import Mathlib

/-!
Verification of the GoldAssayTracker deviation/benchmark core.

This file gives a shallow embedding of the data model and of the operations
implemented in `src/database.py`, `src/database_trainee.py`, `src/utils.py`
and `src/pages/10_Mass_Impact_Analysis.py` of the GoldAssayTracker
repository, and proves the specification claims about them.

Modelling conventions:
* SQLite tables are lists of rows in rowid (insertion) order; `AUTOINCREMENT`
  ids are modelled by an explicit `next_result_id` counter.
* `REAL` columns are modelled as `ℚ` (the claims are about exact arithmetic
  identities, which the float code realises up to rounding).
* SQL `date(...)` comparisons are modelled by a `DateFilter` on day numbers.
* SQL `NULL` for the `bar_weight_grams` column is `Option ℚ`; division by
  zero in SQL (`x / 0` is `NULL`) is modelled with `Option ℚ` results.
* Result-set `ORDER BY` clauses and the final 2-decimal display rounding of
  `get_weighted_mass_impact` are not modelled: no claim concerns row order
  or display rounding.
-/

namespace GoldAssay

/-- Row of the `assayers` table (`init_db` in `src/database.py`); the profile
columns (`joining_date`, `profile_picture`, `work_experience`) play no role in
any claim and are omitted. -/
structure Assayer where
  assayer_id : Nat
  name : String
  employee_id : String
  is_active : Bool
deriving Repr, DecidableEq

/-- Row of the `assay_results` table (`init_db` in `src/database.py`), with
the two columns added by the `ALTER TABLE` migrations (`gold_type`,
`bar_weight_grams`).  `bar_weight_grams` is `Option ℚ` so that SQL `NULL` is
representable. -/
structure AssayResult where
  result_id : Nat
  assayer_id : Nat
  sample_id : String
  gold_content : ℚ
  test_date : Nat
  notes : String
  gold_type : String
  bar_weight_grams : Option ℚ
deriving Repr, DecidableEq

/-- Row of the `benchmark_assayers` table (`init_db` in `src/database.py`). -/
structure BenchmarkRow where
  assayer_id : Nat
  set_date : Nat
  is_active : Bool
deriving Repr, DecidableEq

/-- The relational store `gold_assay.db`, restricted to the three tables the
deviation core reads and writes. -/
structure DB where
  assayers : List Assayer
  assay_results : List AssayResult
  benchmark_assayers : List BenchmarkRow
  next_result_id : Nat
deriving Repr, DecidableEq

/-- State right after `init_db`: all tables empty. -/
def initDB : DB := ⟨[], [], [], 1⟩

/-- `add_assayer` (`src/database.py`): `INSERT INTO assayers ...`; the
`employee_id UNIQUE` constraint raises `sqlite3.IntegrityError`, which the
function catches and turns into `success = False`. -/
def add_assayer (db : DB) (name employee_id : String) (new_id : Nat) : DB × Bool :=
  if db.assayers.any (fun a => a.employee_id == employee_id) then (db, false)
  else ({db with assayers := db.assayers ++ [⟨new_id, name, employee_id, true⟩]}, true)

/-- `update_assayer` (`src/database.py`): `UPDATE assayers SET name, employee_id
WHERE assayer_id = ?`; an `IntegrityError` (duplicate `employee_id` on another
row) yields `success = False`.  The optional profile columns are omitted. -/
def update_assayer (db : DB) (assayer_id : Nat) (name employee_id : String) : DB × Bool :=
  if db.assayers.any (fun a => decide (a.assayer_id ≠ assayer_id) && (a.employee_id == employee_id))
  then (db, false)
  else ({db with assayers := db.assayers.map (fun a =>
          if a.assayer_id = assayer_id then {a with name := name, employee_id := employee_id}
          else a)}, true)

/-- `delete_assayer` (`src/database.py`): refuses to deactivate the current
benchmark assayer; otherwise soft-deletes by `SET is_active = 0`. -/
def delete_assayer (db : DB) (assayer_id : Nat) : DB × Bool :=
  if db.benchmark_assayers.any (fun b => (b.assayer_id == assayer_id) && b.is_active)
  then (db, false)
  else ({db with assayers := db.assayers.map (fun a =>
          if a.assayer_id = assayer_id then {a with is_active := false} else a)}, true)

/-- `add_assay_result` (`src/database.py`, lines 171-203): `INSERT OR REPLACE
INTO assay_results ...` — a row with the same `(assayer_id, sample_id)` pair
is deleted and the new row inserted with a fresh rowid; the function then
returns `success = True`.  The only `False` path in the source is an
operational exception (e.g. a broken connection), which the embedding does
not model. -/
def add_assay_result (db : DB) (assayer_id : Nat) (sample_id : String) (gold_content : ℚ)
    (test_date : Nat) (notes gold_type : String) (bar_weight_grams : ℚ) : DB × Bool :=
  let kept := db.assay_results.filter
    (fun r => !((r.assayer_id == assayer_id) && (r.sample_id == sample_id)))
  ({db with
      assay_results := kept ++
        [⟨db.next_result_id, assayer_id, sample_id, gold_content, test_date, notes,
          gold_type, some bar_weight_grams⟩],
      next_result_id := db.next_result_id + 1}, true)

/-- `update_assay_result` (`src/database.py`): updates `gold_content` and
`notes`, and `gold_type` / `bar_weight_grams` only when provided. -/
def update_assay_result (db : DB) (result_id : Nat) (gold_content : ℚ) (notes : String)
    (gold_type : Option String) (bar_weight_grams : Option ℚ) : DB × Bool :=
  ({db with assay_results := db.assay_results.map (fun r =>
      if r.result_id = result_id then
        { r with gold_content := gold_content, notes := notes,
                 gold_type := gold_type.getD r.gold_type,
                 bar_weight_grams := match bar_weight_grams with
                   | none => r.bar_weight_grams
                   | some w => some w }
      else r)}, true)

/-- `delete_assay_result` (`src/database.py`): refuses to delete a result that
belongs to the active benchmark assayer; otherwise deletes the row. -/
def delete_assay_result (db : DB) (result_id : Nat) : DB × Bool :=
  if db.assay_results.any (fun r => (r.result_id == result_id) &&
        db.benchmark_assayers.any (fun b => (b.assayer_id == r.assayer_id) && b.is_active))
  then (db, false)
  else ({db with assay_results :=
          db.assay_results.filter (fun r => !(r.result_id == result_id))}, true)

/-- `set_benchmark_assayer` (`src/database.py`, lines 309-325): first
`UPDATE benchmark_assayers SET is_active = 0` (no WHERE clause — every row),
then `INSERT INTO benchmark_assayers (assayer_id, set_date, is_active)
VALUES (?, now, 1)`.  Always returns `True`. -/
def set_benchmark_assayer (db : DB) (assayer_id : Nat) (set_date : Nat) : DB :=
  {db with benchmark_assayers :=
      db.benchmark_assayers.map (fun b => {b with is_active := false}) ++
        [⟨assayer_id, set_date, true⟩]}

/-- The rows `SELECT * FROM benchmark_assayers WHERE is_active = 1` returns. -/
def activeBenchmarks (db : DB) : List BenchmarkRow :=
  db.benchmark_assayers.filter (·.is_active)

/-- `SELECT assayer_id FROM benchmark_assayers WHERE is_active = 1 LIMIT 1` —
the benchmark-lookup prologue shared by `get_deviations_from_benchmark`,
`get_assayer_performance` and `get_weighted_mass_impact`; `none` when the
result set is empty. -/
def benchmarkId (db : DB) : Option Nat :=
  (activeBenchmarks db).head?.map (·.assayer_id)

/-- Number of active rows in `benchmark_assayers`. -/
def countActiveBenchmarks (db : DB) : Nat := (activeBenchmarks db).length

/-- States reachable through the write operations of `src/database.py` from a
freshly initialised database. -/
inductive Reachable : DB → Prop where
  | init : Reachable initDB
  | add_assayer {db} (n e : String) (i : Nat) :
      Reachable db → Reachable (GoldAssay.add_assayer db n e i).1
  | update_assayer {db} (i : Nat) (n e : String) :
      Reachable db → Reachable (GoldAssay.update_assayer db i n e).1
  | delete_assayer {db} (i : Nat) :
      Reachable db → Reachable (GoldAssay.delete_assayer db i).1
  | add_assay_result {db} (aid : Nat) (sid : String) (g : ℚ) (t : Nat) (n gt : String) (w : ℚ) :
      Reachable db → Reachable (GoldAssay.add_assay_result db aid sid g t n gt w).1
  | update_assay_result {db} (rid : Nat) (g : ℚ) (n : String) (gt : Option String) (w : Option ℚ) :
      Reachable db → Reachable (GoldAssay.update_assay_result db rid g n gt w).1
  | delete_assay_result {db} (rid : Nat) :
      Reachable db → Reachable (GoldAssay.delete_assay_result db rid).1
  | set_benchmark {db} (aid d : Nat) :
      Reachable db → Reachable (GoldAssay.set_benchmark_assayer db aid d)

/-- Deactivating every row leaves no active row. -/
lemma filter_active_map_deactivate (l : List BenchmarkRow) :
    (l.map (fun b => {b with is_active := false})).filter (·.is_active) = [] := by
  induction l with
  | nil => rfl
  | cons b t ih => simp [List.filter, ih]

/-- Exactly one member of `benchmark_assayers` is active after
`set_benchmark_assayer`. -/
lemma countActive_set_benchmark (db : DB) (aid d : Nat) :
    countActiveBenchmarks (set_benchmark_assayer db aid d) = 1 := by
  simp [countActiveBenchmarks, activeBenchmarks, set_benchmark_assayer,
    List.filter_append, filter_active_map_deactivate, List.filter]

/-- Benchmark uniqueness invariant (claim about `set_benchmark_assayer`):
every reachable database state has at most one active `benchmark_assayers`
row; a call to `set_benchmark_assayer` leaves exactly one active row — the
newly inserted row for the given assayer — and deactivates every
previously stored row (position `i` of the old table is deactivated at
position `i` of the new table). -/
theorem set_benchmark_exactly_one_active :
    (∀ db, Reachable db → countActiveBenchmarks db ≤ 1) ∧
    (∀ db aid d,
      countActiveBenchmarks (set_benchmark_assayer db aid d) = 1 ∧
      (∀ row ∈ (set_benchmark_assayer db aid d).benchmark_assayers,
        row.is_active = true → row = ⟨aid, d, true⟩) ∧
      (∀ i, i < db.benchmark_assayers.length →
        ((set_benchmark_assayer db aid d).benchmark_assayers[i]?.map (·.is_active)) =
          some false)) := by
  constructor
  · intro db h
    induction h with
    | init => simp [countActiveBenchmarks, activeBenchmarks, initDB]
    | add_assayer n e i _ ih =>
        unfold GoldAssay.add_assayer
        split <;> simpa [countActiveBenchmarks, activeBenchmarks] using ih
    | update_assayer i n e _ ih =>
        unfold GoldAssay.update_assayer
        split <;> simpa [countActiveBenchmarks, activeBenchmarks] using ih
    | delete_assayer i _ ih =>
        unfold GoldAssay.delete_assayer
        split <;> simpa [countActiveBenchmarks, activeBenchmarks] using ih
    | add_assay_result aid sid g t n gt w _ ih =>
        simp only [GoldAssay.add_assay_result]
        exact ih
    | update_assay_result rid g n gt w _ ih =>
        simp only [GoldAssay.update_assay_result]
        exact ih
    | delete_assay_result rid _ ih =>
        unfold GoldAssay.delete_assay_result
        split <;> simpa [countActiveBenchmarks, activeBenchmarks] using ih
    | set_benchmark aid d _ _ =>
        exact le_of_eq (countActive_set_benchmark _ aid d)
  · intro db aid d
    refine ⟨countActive_set_benchmark db aid d, ?_, ?_⟩
    · intro row hrow hact
      simp only [set_benchmark_assayer, List.mem_append, List.mem_map] at hrow
      rcases hrow with ⟨b, _, rfl⟩ | hrow
      · simp at hact
      · simpa using hrow
    · intro i hi
      have hlen : i < (db.benchmark_assayers.map (fun b => {b with is_active := false})).length := by
        simpa using hi
      rw [set_benchmark_assayer]
      simp only [List.getElem?_append_left hlen]
      rw [List.getElem?_eq_getElem hlen]
      simp

/-- Concrete instance of `set_benchmark_exactly_one_active`: the state that
sets assayer 1 then assayer 2 as benchmark is reachable, carries at most one
(indeed exactly one) active benchmark row, and the active row is the one for
assayer 2. -/
theorem set_benchmark_exactly_one_active_witness :
    countActiveBenchmarks
        (set_benchmark_assayer (set_benchmark_assayer initDB 1 5) 2 6) ≤ 1 ∧
    countActiveBenchmarks (set_benchmark_assayer (set_benchmark_assayer initDB 1 5) 2 6) = 1 ∧
    (∀ row ∈ (set_benchmark_assayer (set_benchmark_assayer initDB 1 5) 2 6).benchmark_assayers,
        row.is_active = true → row = ⟨2, 6, true⟩) := by
  refine ⟨set_benchmark_exactly_one_active.1 _
      (Reachable.set_benchmark 2 6 (Reachable.set_benchmark 1 5 Reachable.init)), ?_, ?_⟩
  · exact (set_benchmark_exactly_one_active.2 (set_benchmark_assayer initDB 1 5) 2 6).1
  · exact (set_benchmark_exactly_one_active.2 (set_benchmark_assayer initDB 1 5) 2 6).2.1

/-- The `UNIQUE(assayer_id, sample_id)` constraint of `assay_results`
(`init_db`): no two rows share the same (assayer, sample) pair. -/
def uniqueResultPairs (db : DB) : Prop :=
  db.assay_results.Pairwise
    (fun r₁ r₂ => (r₁.assayer_id, r₁.sample_id) ≠ (r₂.assayer_id, r₂.sample_id))

/-- The `AUTOINCREMENT` invariant: every stored rowid is below the counter. -/
def resultIdsBelowCounter (db : DB) : Prop :=
  ∀ r ∈ db.assay_results, r.result_id < db.next_result_id

/-- A database holding one assayer (id 1) with one stored reading for sample
"S1"; used as the concrete duplicate-insert scenario. -/
def dbDup : DB :=
  ⟨[⟨1, "Alice", "E1", true⟩], [⟨1, 1, "S1", 995, 1, "", "Unknown", some 1000⟩], [], 2⟩

/-- Counterexample to the claim that a duplicate `(assayer_id, sample_id)`
insert is reported as a failure through `add_assay_result`'s return value:
in `dbDup` assayer 1 already has a reading for sample "S1", yet calling
`add_assay_result` again for (1, "S1") returns `True` — exactly the value a
fresh insert returns, so the caller cannot detect the duplicate. -/
theorem duplicate_insert_returns_success :
    (∃ r ∈ dbDup.assay_results, r.assayer_id = 1 ∧ r.sample_id = "S1") ∧
    (add_assay_result dbDup 1 "S1" 990 2 "" "Unknown" 500).2 = true ∧
    (add_assay_result dbDup 1 "S1" 990 2 "" "Unknown" 500).2 ≠ false :=
  ⟨⟨⟨1, 1, "S1", 995, 1, "", "Unknown", some 1000⟩, by simp [dbDup], rfl, rfl⟩,
    rfl, by simp [add_assay_result]⟩

/-- Amended claim: `add_assay_result` never reports a duplicate — the
`INSERT OR REPLACE` statement makes every call succeed, so the boolean
return value is `True` for fresh and duplicate pairs alike (the only
`False` path in the source is an operational exception). -/
theorem add_assay_result_always_succeeds (db : DB) (aid : Nat) (sid : String) (g : ℚ)
    (t : Nat) (n gt : String) (w : ℚ) :
    (add_assay_result db aid sid g t n gt w).2 = true := rfl

/-- Replacement semantics of `add_assay_result` on a duplicate
`(assayer_id, sample_id)` pair: the call returns `True`, the table afterwards
holds exactly one row for the pair — a fresh row carrying the new
`gold_content`, `test_date`, `notes`, `gold_type` and `bar_weight_grams` —
the earlier reading is gone, rows for other pairs are untouched, and the
at-most-one-reading-per-pair invariant is preserved. -/
theorem add_assay_result_replaces (db : DB) (aid : Nat) (sid : String) (g : ℚ)
    (t : Nat) (n gt : String) (w : ℚ)
    (_hdup : ∃ r ∈ db.assay_results, r.assayer_id = aid ∧ r.sample_id = sid)
    (hids : resultIdsBelowCounter db) :
    (add_assay_result db aid sid g t n gt w).2 = true ∧
    (⟨db.next_result_id, aid, sid, g, t, n, gt, some w⟩ : AssayResult) ∈
        (add_assay_result db aid sid g t n gt w).1.assay_results ∧
    ((add_assay_result db aid sid g t n gt w).1.assay_results.countP
        (fun r => (r.assayer_id == aid) && (r.sample_id == sid))) = 1 ∧
    (∀ r ∈ db.assay_results, r.assayer_id = aid ∧ r.sample_id = sid →
        r ∉ (add_assay_result db aid sid g t n gt w).1.assay_results) ∧
    (∀ r ∈ db.assay_results, ¬(r.assayer_id = aid ∧ r.sample_id = sid) →
        r ∈ (add_assay_result db aid sid g t n gt w).1.assay_results) ∧
    (uniqueResultPairs db → uniqueResultPairs (add_assay_result db aid sid g t n gt w).1) := by
  refine ⟨rfl, ?_, ?_, ?_, ?_, ?_⟩
  · simp [add_assay_result]
  · rw [add_assay_result]
    simp only [List.countP_append, List.countP_filter]
    rw [List.countP_eq_zero.2, List.countP_singleton]
    · simp
    · intro r _
      cases h : (r.assayer_id == aid) && (r.sample_id == sid) <;> simp [h]
  · intro r hr hpair
    rw [add_assay_result]
    simp only [List.mem_append, List.mem_filter, List.mem_singleton]
    rintro (⟨-, hkeep⟩ | rfl)
    · simp [hpair.1, hpair.2] at hkeep
    · exact absurd rfl (Nat.ne_of_lt (hids _ hr))
  · intro r hr hpair
    rw [add_assay_result]
    simp only [List.mem_append, List.mem_filter]
    refine Or.inl ⟨hr, ?_⟩
    cases ha : r.assayer_id == aid <;> cases hs : r.sample_id == sid <;> simp_all
  · intro hu
    rw [uniqueResultPairs, add_assay_result]
    refine List.pairwise_append.2 ⟨List.Pairwise.sublist (List.filter_sublist _) hu, by simp, ?_⟩
    intro r hr r' hr'
    simp only [List.mem_filter] at hr
    simp only [List.mem_singleton] at hr'
    subst hr'
    intro hcontra
    have h1 : r.assayer_id = aid := congrArg Prod.fst hcontra
    have h2 : r.sample_id = sid := congrArg Prod.snd hcontra
    simp [h1, h2] at hr

/-- Concrete instance of `add_assay_result_replaces`: re-inserting (1, "S1")
into `dbDup` succeeds, stores the new reading 990 under a fresh rowid, and
leaves exactly one row for the pair. -/
theorem add_assay_result_replaces_witness :
    (add_assay_result dbDup 1 "S1" 990 2 "" "Unknown" 500).2 = true ∧
    (⟨2, 1, "S1", 990, 2, "", "Unknown", some 500⟩ : AssayResult) ∈
        (add_assay_result dbDup 1 "S1" 990 2 "" "Unknown" 500).1.assay_results ∧
    ((add_assay_result dbDup 1 "S1" 990 2 "" "Unknown" 500).1.assay_results.countP
        (fun r => (r.assayer_id == 1) && (r.sample_id == "S1"))) = 1 := by
  have h := add_assay_result_replaces dbDup 1 "S1" 990 2 "" "Unknown" 500
    ⟨⟨1, 1, "S1", 995, 1, "", "Unknown", some 1000⟩, by simp [dbDup], rfl, rfl⟩
    (by intro r hr; simp only [dbDup, List.mem_singleton] at hr; simp [hr, dbDup])
  exact ⟨h.1, h.2.1, h.2.2.1⟩

/-- Date filtering of `date(r.test_date)` against the query window, covering
the three branches the source builds (`BETWEEN start AND end`, relative
`-days` from today, or no condition). -/
inductive DateFilter where
  | byDays (today days : Nat)
  | byRange (start_date end_date : Nat)
  | noFilter
deriving Repr, DecidableEq

/-- Whether a result's `test_date` satisfies the filter; for `byDays` the SQL
condition `date(r.test_date) >= date('now', '-days days')` becomes
`today - days ≤ t`, written without truncated subtraction. -/
def DateFilter.keep : DateFilter → Nat → Bool
  | .byDays today days, t => decide (today ≤ t + days)
  | .byRange s e, t => decide (s ≤ t ∧ t ≤ e)
  | .noFilter, _ => true

/-- Arithmetic mean as computed by SQL `AVG` / pandas `mean` (never applied to
an empty list by the code; `[]` gives `0/0 = 0` in `ℚ`). -/
def ratMean (l : List ℚ) : ℚ := l.sum / l.length

/-- SQL `MIN` over a group (groups are never empty). -/
def natListMin : List Nat → Nat
  | [] => 0
  | x :: xs => xs.foldl Nat.min x

/-- SQL `MAX` over a group (groups are never empty). -/
def natListMax : List Nat → Nat
  | [] => 0
  | x :: xs => xs.foldl Nat.max x

/-- One row of the result set of `get_deviations_from_benchmark`
(`src/database.py`, lines 410-464): `r.*` columns plus the computed
`benchmark_value`, `deviation`, `absolute_deviation`, `percentage_deviation`
columns.  `percentage_deviation` is `none` exactly when the benchmark reading
is zero (SQLite division by zero yields `NULL`). -/
structure DeviationRecord where
  result_id : Nat
  assayer_id : Nat
  sample_id : String
  gold_content : ℚ
  test_date : Nat
  assayer_name : String
  benchmark_value : ℚ
  deviation : ℚ
  absolute_deviation : ℚ
  percentage_deviation : Option ℚ
deriving Repr, DecidableEq

/-- The SELECT list of the deviation query applied to one joined triple
(result row `r`, its `assayers` row `a`, benchmark row `b`). -/
def mkDeviationRecord (r : AssayResult) (a : Assayer) (b : AssayResult) : DeviationRecord :=
  { result_id := r.result_id
    assayer_id := r.assayer_id
    sample_id := r.sample_id
    gold_content := r.gold_content
    test_date := r.test_date
    assayer_name := a.name
    benchmark_value := b.gold_content
    deviation := r.gold_content - b.gold_content
    absolute_deviation := |r.gold_content - b.gold_content|
    percentage_deviation :=
      if b.gold_content = 0 then none
      else some ((r.gold_content - b.gold_content) / b.gold_content * 100) }

/-- `get_deviations_from_benchmark` (`src/database.py`, lines 410-464).
Returns `none` when `benchmark_assayers` has no active row; otherwise the
rows of `FROM assay_results r JOIN assayers a ON r.assayer_id = a.assayer_id
JOIN assay_results b ON r.sample_id = b.sample_id AND b.assayer_id =
benchmark_id WHERE r.assayer_id != benchmark_id`.  The `days` argument of the
Python function is unused (its query has no date condition), and the
`ORDER BY` clause is not modelled. -/
def get_deviations_from_benchmark (db : DB) : Option (List DeviationRecord) :=
  match benchmarkId db with
  | none => none
  | some bid => some
      ((db.assay_results.filter (fun r => decide (r.assayer_id ≠ bid))).flatMap (fun r =>
        (db.assayers.filter (fun a => a.assayer_id == r.assayer_id)).flatMap (fun a =>
          (db.assay_results.filter
              (fun b => (b.sample_id == r.sample_id) && (b.assayer_id == bid))).map
            (fun b => mkDeviationRecord r a b))))

/-- One row of the result of `get_assayer_performance`
(`src/database.py`, lines 629-680): per-assayer aggregates over the joined
deviation rows.  `avg_percentage_deviation` is `none` when every group member
has a zero benchmark reading (SQL `AVG` ignores `NULL` and returns `NULL` on
an all-`NULL` group). -/
structure PerformanceRow where
  assayer_id : Nat
  assayer_name : String
  sample_count : Nat
  avg_deviation : ℚ
  avg_absolute_deviation : ℚ
  avg_percentage_deviation : Option ℚ
  first_test : Nat
  last_test : Nat
deriving Repr, DecidableEq

/-- The joined, date-filtered rows underlying `get_assayer_performance`:
`FROM assay_results r JOIN assayers a JOIN assay_results b` with
`r.assayer_id != benchmark_id` and the date condition. -/
def perfJoin (db : DB) (bid : Nat) (df : DateFilter) : List (AssayResult × Assayer × AssayResult) :=
  (db.assay_results.filter
      (fun r => decide (r.assayer_id ≠ bid) && df.keep r.test_date)).flatMap (fun r =>
    (db.assayers.filter (fun a => a.assayer_id == r.assayer_id)).flatMap (fun a =>
      (db.assay_results.filter
          (fun b => (b.sample_id == r.sample_id) && (b.assayer_id == bid))).map
        (fun b => (r, a, b))))

/-- `get_assayer_performance` (`src/database.py`, lines 629-680): `none` when
no benchmark is set, otherwise one aggregate row per `(assayer_id, name)`
group of the join. -/
def get_assayer_performance (db : DB) (df : DateFilter) : Option (List PerformanceRow) :=
  match benchmarkId db with
  | none => none
  | some bid =>
    let rows := perfJoin db bid df
    let keys := (rows.map (fun x => (x.2.1.assayer_id, x.2.1.name))).dedup
    some (keys.map (fun k =>
      let g := rows.filter (fun x => (x.2.1.assayer_id == k.1) && (x.2.1.name == k.2))
      let devs := g.map (fun x => x.1.gold_content - x.2.2.gold_content)
      let pcts := (g.filter (fun x => decide (x.2.2.gold_content ≠ 0))).map
        (fun x => |x.1.gold_content - x.2.2.gold_content| / x.2.2.gold_content * 100)
      { assayer_id := k.1
        assayer_name := k.2
        sample_count := g.length
        avg_deviation := ratMean devs
        avg_absolute_deviation := ratMean (devs.map (fun d => |d|))
        avg_percentage_deviation := if pcts.isEmpty then none else some (ratMean pcts)
        first_test := natListMin (g.map (fun x => x.1.test_date))
        last_test := natListMax (g.map (fun x => x.1.test_date)) }))

/-- One row of the SQL result inside `get_weighted_mass_impact`
(`src/database.py`, lines 864-895), i.e. `samples_df` as read from the
database, before the pandas post-processing. -/
structure MassJoinRow where
  result_id : Nat
  assayer_id : Nat
  assayer_name : String
  sample_id : String
  gold_content : ℚ
  benchmark_gold_content : ℚ
  deviation_ppt : ℚ
  bar_weight_grams : Option ℚ
  test_date : Nat
  gold_type : String
deriving Repr, DecidableEq

/-- The SQL query of `get_weighted_mass_impact`: the deviation join with the
date filter, the `r.gold_content >= min_gold_content` condition and the
`r.bar_weight_grams IS NOT NULL AND r.bar_weight_grams > 0` condition that
excludes rows with missing or zero bar weight. -/
def massImpactJoin (db : DB) (bid : Nat) (df : DateFilter) (min_gold_content : ℚ) :
    List MassJoinRow :=
  (db.assay_results.filter (fun r =>
      decide (r.assayer_id ≠ bid) && df.keep r.test_date &&
      decide (min_gold_content ≤ r.gold_content) &&
      (match r.bar_weight_grams with
        | none => false
        | some w => decide (0 < w)))).flatMap (fun r =>
    (db.assayers.filter (fun a => a.assayer_id == r.assayer_id)).flatMap (fun a =>
      (db.assay_results.filter
          (fun b => (b.sample_id == r.sample_id) && (b.assayer_id == bid))).map
        (fun b =>
          { result_id := r.result_id
            assayer_id := r.assayer_id
            assayer_name := a.name
            sample_id := r.sample_id
            gold_content := r.gold_content
            benchmark_gold_content := b.gold_content
            deviation_ppt := r.gold_content - b.gold_content
            bar_weight_grams := r.bar_weight_grams
            test_date := r.test_date
            gold_type := r.gold_type })))

/-- The pandas line `samples_df['bar_weight_grams'].fillna(1000).replace(0,
1000)`: a missing or zero bar weight becomes 1000 g.  (Dead code on the rows
the query returns — they all carry a positive weight — but part of the
source.) -/
def fillWeight : Option ℚ → ℚ
  | none => 1000
  | some w => if w = 0 then 1000 else w

/-- `samples_df` after the pandas post-processing of `get_weighted_mass_impact`
(`src/database.py`, lines 900-910): filled bar weight, gold masses, mass
deviation and its positive/negative parts. -/
structure MassSample where
  result_id : Nat
  assayer_id : Nat
  assayer_name : String
  sample_id : String
  gold_content : ℚ
  benchmark_gold_content : ℚ
  deviation_ppt : ℚ
  bar_weight_grams : ℚ
  actual_gold_mass_g : ℚ
  benchmark_gold_mass_g : ℚ
  mass_deviation_g : ℚ
  positive_deviation_g : ℚ
  negative_deviation_g : ℚ
deriving Repr, DecidableEq

/-- The column computations of lines 900-910 of `src/database.py` applied to
one joined row. -/
def toMassSample (j : MassJoinRow) : MassSample :=
  let w := fillWeight j.bar_weight_grams
  let actual := w * (j.gold_content / 1000)
  let bench := w * (j.benchmark_gold_content / 1000)
  let md := actual - bench
  { result_id := j.result_id
    assayer_id := j.assayer_id
    assayer_name := j.assayer_name
    sample_id := j.sample_id
    gold_content := j.gold_content
    benchmark_gold_content := j.benchmark_gold_content
    deviation_ppt := j.deviation_ppt
    bar_weight_grams := w
    actual_gold_mass_g := actual
    benchmark_gold_mass_g := bench
    mass_deviation_g := md
    positive_deviation_g := max 0 md
    negative_deviation_g := |min 0 md| }

/-- The fully post-processed `samples_df` of `get_weighted_mass_impact`. -/
def massSamples (db : DB) (bid : Nat) (df : DateFilter) (min_gold_content : ℚ) :
    List MassSample :=
  (massImpactJoin db bid df min_gold_content).map toMassSample

/-- One row of `summary_df` in `get_weighted_mass_impact`
(`src/database.py`, lines 912-942), restricted to the aggregate columns the
claims concern; the sample-standard-deviation, median and ratio columns and
the 2-decimal display rounding are not modelled (no claim depends on them). -/
structure MassSummaryRow where
  assayer_id : Nat
  assayer_name : String
  sample_count : Nat
  total_bar_mass_kg : ℚ
  total_mass_deviation_g : ℚ
  total_positive_deviation_g : ℚ
  total_negative_deviation_g : ℚ
  total_abs_mass_deviation_g : ℚ
  avg_mass_deviation_g : ℚ
deriving Repr, DecidableEq

/-- The `groupby(['assayer_id', 'assayer_name']).agg(...)` step of
`get_weighted_mass_impact` (`src/database.py`, lines 912-942): one aggregate
row per (assayer id, name) pair occurring in `samples_df`. -/
def massSummary (samples : List MassSample) : List MassSummaryRow :=
  ((samples.map (fun s => (s.assayer_id, s.assayer_name))).dedup).map (fun k =>
    let g := samples.filter (fun s => (s.assayer_id == k.1) && (s.assayer_name == k.2))
    { assayer_id := k.1
      assayer_name := k.2
      sample_count := g.length
      total_bar_mass_kg := (g.map (fun s => s.bar_weight_grams)).sum / 1000
      total_mass_deviation_g := (g.map (fun s => s.mass_deviation_g)).sum
      total_positive_deviation_g := (g.map (fun s => s.positive_deviation_g)).sum
      total_negative_deviation_g := (g.map (fun s => s.negative_deviation_g)).sum
      total_abs_mass_deviation_g := (g.map (fun s => |s.mass_deviation_g|)).sum
      avg_mass_deviation_g := ratMean (g.map (fun s => s.mass_deviation_g)) })

/-- `get_weighted_mass_impact` (`src/database.py`, lines 819-958): `none` when
no benchmark is set, otherwise the per-assayer aggregation of `samples_df`. -/
def get_weighted_mass_impact (db : DB) (df : DateFilter) (min_gold_content : ℚ) :
    Option (List MassSummaryRow) :=
  match benchmarkId db with
  | none => none
  | some bid => some (massSummary (massSamples db bid df min_gold_content))

/-- No-benchmark signalling (claim): with no active `benchmark_assayers` row,
`get_deviations_from_benchmark`, `get_assayer_performance` and
`get_weighted_mass_impact` all return the distinguished `None` value rather
than an error or an empty result set. -/
theorem no_benchmark_returns_none (db : DB)
    (h : countActiveBenchmarks db = 0) :
    get_deviations_from_benchmark db = none ∧
    (∀ df, get_assayer_performance db df = none) ∧
    (∀ df m, get_weighted_mass_impact db df m = none) := by
  have hb : benchmarkId db = none := by
    rw [benchmarkId, List.head?_eq_none_iff.2]
    · rfl
    · exact List.length_eq_zero.1 h
  exact ⟨by rw [get_deviations_from_benchmark, hb],
    fun df => by rw [get_assayer_performance, hb],
    fun df m => by rw [get_weighted_mass_impact, hb]⟩

/-- Concrete instance of `no_benchmark_returns_none`: a database that has
assayers and readings but an empty benchmark table gets `none` from all three
computations. -/
theorem no_benchmark_returns_none_witness :
    countActiveBenchmarks dbDup = 0 ∧
    get_deviations_from_benchmark dbDup = none ∧
    get_assayer_performance dbDup (DateFilter.byDays 30 30) = none ∧
    get_weighted_mass_impact dbDup (DateFilter.byDays 365 365) 0 = none := by
  have h := no_benchmark_returns_none dbDup rfl
  exact ⟨rfl, h.1, h.2.1 _, h.2.2 _ _⟩

/-- Whether some stored reading matches the given (assayer, sample) pair. -/
def hasReading (db : DB) (aid : Nat) (sid : String) : Bool :=
  db.assay_results.any (fun r => (r.assayer_id == aid) && (r.sample_id == sid))

/-- `assayer_id` is the primary key of `assayers`: ids are pairwise distinct. -/
def uniqueAssayerIds (db : DB) : Prop :=
  db.assayers.Pairwise (fun a₁ a₂ => a₁.assayer_id ≠ a₂.assayer_id)

/-- The foreign key `assay_results.assayer_id REFERENCES assayers`: every
stored reading belongs to a registered assayer. -/
def resultsHaveAssayers (db : DB) : Prop :=
  ∀ r ∈ db.assay_results, ∃ a ∈ db.assayers, a.assayer_id = r.assayer_id

lemma countP_flatMap {α β : Type} (p : β → Bool) (f : α → List β) (l : List α) :
    (l.flatMap f).countP p = (l.map (fun a => (f a).countP p)).sum := by
  induction l with
  | nil => rfl
  | cons x xs ih => simp [List.flatMap_cons, List.countP_append, ih]

lemma countP_const {β : Type} (c : Bool) (l : List β) :
    (l.countP fun _ => c) = if c then l.length else 0 := by
  induction l with
  | nil => simp
  | cons x xs ih => cases c <;> simp_all [List.countP_cons]

lemma sum_map_indicator {α : Type} (p : α → Bool) (l : List α) :
    (l.map (fun x => if p x then 1 else 0)).sum = l.countP p := by
  induction l with
  | nil => rfl
  | cons x xs ih => by_cases h : p x <;> simp [List.countP_cons, h, ih, Nat.add_comm]

/-- A predicate that can hold on at most one member of a pairwise-separated
list counts to 1 or 0 according to `any`. -/
lemma countP_eq_ite_of_pairwise {α : Type} (p : α → Bool) (l : List α)
    (hp : l.Pairwise (fun x y => p x = true → p y = true → False)) :
    l.countP p = if l.any p then 1 else 0 := by
  induction l with
  | nil => rfl
  | cons x xs ih =>
    rcases List.pairwise_cons.1 hp with ⟨hx, hxs⟩
    by_cases h : p x = true
    · have hz : xs.countP p = 0 :=
        List.countP_eq_zero.2 (fun y hy => fun hpy => hx y hy h hpy)
      simp [List.countP_cons, List.any_cons, h, hz]
    · simp [List.countP_cons, List.any_cons, h, ih hxs]

/-- Characterisation of `get_deviations_from_benchmark` on a database with an
active benchmark (claim): the result is defined; the benchmark assayer never
appears as a row; every row carries `deviation = gold_content −
benchmark_value`, `absolute_deviation = |deviation|`, and — whenever the
benchmark reading is nonzero — `percentage_deviation = deviation /
benchmark_value × 100`; and for every (assayer, sample) pair the result holds
exactly one row when the assayer differs from the benchmark and both it and
the benchmark have a stored reading for the sample, and no row otherwise
(inner-join semantics). -/
theorem benchmark_deviations_characterised (db : DB) (bid : Nat)
    (hb : benchmarkId db = some bid)
    (hu : uniqueResultPairs db)
    (ha : uniqueAssayerIds db)
    (hra : resultsHaveAssayers db) :
    ∃ recs, get_deviations_from_benchmark db = some recs ∧
      (∀ rec ∈ recs, rec.assayer_id ≠ bid ∧
        rec.deviation = rec.gold_content - rec.benchmark_value ∧
        rec.absolute_deviation = |rec.deviation| ∧
        (rec.benchmark_value ≠ 0 →
          rec.percentage_deviation = some (rec.deviation / rec.benchmark_value * 100))) ∧
      (∀ aid sid,
        recs.countP (fun rec => (rec.assayer_id == aid) && (rec.sample_id == sid)) =
          if aid ≠ bid ∧ hasReading db aid sid = true ∧ hasReading db bid sid = true
          then 1 else 0) := by
  refine ⟨_, by rw [get_deviations_from_benchmark, hb], ?_, ?_⟩
  · intro rec hrec
    simp only [List.mem_flatMap, List.mem_map, List.mem_filter] at hrec
    obtain ⟨r, ⟨hr, hrbid⟩, a, ⟨ha', han⟩, b, ⟨hbmem, hbfil⟩, rfl⟩ := hrec
    have hne : r.assayer_id ≠ bid := by simpa using hrbid
    refine ⟨hne, rfl, rfl, ?_⟩
    intro h0
    have : b.gold_content ≠ 0 := by simpa [mkDeviationRecord] using h0
    simp [mkDeviationRecord, this]
  · intro aid sid
    rw [countP_flatMap]
    by_cases haid : aid = bid
    · subst haid
      rw [if_neg (by simp)]
      refine List.sum_eq_zero ?_
      intro n hn
      simp only [List.mem_map, List.mem_filter] at hn
      obtain ⟨r, ⟨hr, hrbid⟩, rfl⟩ := hn
      have hne : r.assayer_id ≠ aid := by simpa using hrbid
      rw [countP_flatMap]
      refine List.sum_eq_zero ?_
      intro m hm
      simp only [List.mem_map] at hm
      obtain ⟨a, _, rfl⟩ := hm
      rw [List.countP_map]
      have : ((fun rec => (rec.assayer_id == aid) && (rec.sample_id == sid)) ∘
          mkDeviationRecord r a) = fun _ => ((r.assayer_id == aid) && (r.sample_id == sid)) := rfl
      rw [this, countP_const, if_neg (by simp [hne])]
    · -- aid ≠ bid: each inner flatMap counts with a predicate constant in b
      have hmap : ∀ (r : AssayResult) (a : Assayer),
          ((db.assay_results.filter
              (fun b => (b.sample_id == r.sample_id) && (b.assayer_id == bid))).map
            (fun b => mkDeviationRecord r a b)).countP
            (fun rec => (rec.assayer_id == aid) && (rec.sample_id == sid)) =
          if (r.assayer_id == aid) && (r.sample_id == sid)
          then (db.assay_results.filter
            (fun b => (b.sample_id == r.sample_id) && (b.assayer_id == bid))).length
          else 0 := by
        intro r a
        rw [List.countP_map]
        have hconst : ((fun rec => (rec.assayer_id == aid) && (rec.sample_id == sid)) ∘
            mkDeviationRecord r a) =
            fun _ => ((r.assayer_id == aid) && (r.sample_id == sid)) := rfl
        rw [hconst, countP_const]
      by_cases hbench : hasReading db bid sid = true
      · -- each outer term is the indicator of (aid, sid)
        have hterm : ∀ r ∈ db.assay_results.filter (fun r => decide (r.assayer_id ≠ bid)),
            ((db.assayers.filter (fun a => a.assayer_id == r.assayer_id)).flatMap (fun a =>
              (db.assay_results.filter
                  (fun b => (b.sample_id == r.sample_id) && (b.assayer_id == bid))).map
                (fun b => mkDeviationRecord r a b))).countP
              (fun rec => (rec.assayer_id == aid) && (rec.sample_id == sid)) =
            if (r.assayer_id == aid) && (r.sample_id == sid) then 1 else 0 := by
          intro r hr
          have hrmem : r ∈ db.assay_results := (List.mem_filter.1 hr).1
          rw [countP_flatMap]
          by_cases hkey : ((r.assayer_id == aid) && (r.sample_id == sid)) = true
          · -- r is the (aid, sid) row: one matching assayer, one benchmark row
            obtain ⟨hka, hks⟩ := by simpa using hkey
            have hlenA : (db.assayers.filter
                (fun a => a.assayer_id == r.assayer_id)).length = 1 := by
              rw [← List.countP_eq_length_filter, countP_eq_ite_of_pairwise _ _
                (ha.imp (fun {a₁ a₂} hne h1 h2 => hne (by
                  have e1 : a₁.assayer_id = r.assayer_id := by simpa using h1
                  have e2 : a₂.assayer_id = r.assayer_id := by simpa using h2
                  rw [e1, e2])))]
              obtain ⟨a, hamem, hae⟩ := hra r hrmem
              rw [if_pos (List.any_eq_true.2 ⟨a, hamem, by simp [hae]⟩)]
            have hlenB : (db.assay_results.filter
                (fun b => (b.sample_id == r.sample_id) && (b.assayer_id == bid))).length = 1 := by
              rw [← List.countP_eq_length_filter, countP_eq_ite_of_pairwise _ _
                (hu.imp (fun {r₁ r₂} hne h1 h2 => hne (by
                  obtain ⟨e1, e2⟩ := by simpa using h1
                  obtain ⟨e3, e4⟩ := by simpa using h2
                  rw [Prod.ext_iff]
                  exact ⟨by rw [e2, e4], by rw [e1, e3]⟩)))]
              obtain ⟨b, hbmem, hbp⟩ := List.any_eq_true.1 hbench
              obtain ⟨hb1, hb2⟩ := by simpa using hbp
              rw [if_pos (List.any_eq_true.2 ⟨b, hbmem, by simp [hb1, hb2, hks]⟩)]
            rw [List.map_congr_left (fun a _ => hmap r a), if_pos hkey]
            simp only [hlenB, List.map_const', List.sum_const_nat, hlenA, Nat.mul_one]
            rw [if_pos hkey]
          · rw [if_neg hkey]
            refine List.sum_eq_zero ?_
            intro m hm
            simp only [List.mem_map] at hm
            obtain ⟨a, _, rfl⟩ := hm
            rw [hmap r a, if_neg hkey]
        rw [List.map_congr_left hterm, sum_map_indicator,
          countP_eq_ite_of_pairwise _ _
            ((List.Pairwise.sublist (List.filter_sublist _) hu).imp (fun {r₁ r₂} hne h1 h2 => hne (by
              obtain ⟨e1, e2⟩ := by simpa using h1
              obtain ⟨e3, e4⟩ := by simpa using h2
              rw [Prod.ext_iff]
              exact ⟨by rw [e1, e3], by rw [e2, e4]⟩)))]
        have hany : (db.assay_results.filter (fun r => decide (r.assayer_id ≠ bid))).any
            (fun r => (r.assayer_id == aid) && (r.sample_id == sid)) = hasReading db aid sid := by
          cases hhr : hasReading db aid sid
          · refine (Bool.eq_false_iff).2 ?_
            intro hcontra
            obtain ⟨r, hrmem, hrp⟩ := List.any_eq_true.1 hcontra
            have hcon : db.assay_results.any
                (fun r => (r.assayer_id == aid) && (r.sample_id == sid)) = true :=
              List.any_eq_true.2 ⟨r, (List.mem_filter.1 hrmem).1, hrp⟩
            simp only [hasReading] at hhr
            rw [hhr] at hcon
            exact Bool.false_ne_true hcon
          · obtain ⟨r, hrmem, hrp⟩ := List.any_eq_true.1 hhr
            obtain ⟨e1, e2⟩ := by simpa using hrp
            exact List.any_eq_true.2 ⟨r, List.mem_filter.2 ⟨hrmem, by simp [e1, haid]⟩, hrp⟩
        rw [hany]
        cases hhr : hasReading db aid sid
        · rw [if_neg (by simp), if_neg (by simp [hhr])]
        · rw [if_pos rfl, if_pos ⟨haid, rfl, hbench⟩]
      · -- no benchmark reading for the sample: no (aid, sid) row can be produced
        rw [if_neg (fun h => hbench h.2.2)]
        refine List.sum_eq_zero ?_
        intro n hn
        simp only [List.mem_map] at hn
        obtain ⟨r, hr, rfl⟩ := hn
        rw [countP_flatMap]
        refine List.sum_eq_zero ?_
        intro m hm
        simp only [List.mem_map] at hm
        obtain ⟨a, _, rfl⟩ := hm
        rw [hmap r a]
        by_cases hkey : ((r.assayer_id == aid) && (r.sample_id == sid)) = true
        · obtain ⟨hka, hks⟩ := by simpa using hkey
          rw [if_pos hkey]
          have hnil : db.assay_results.filter
              (fun b => (b.sample_id == r.sample_id) && (b.assayer_id == bid)) = [] := by
            rw [List.filter_eq_nil_iff]
            intro b hbmem hbp
            obtain ⟨f1, f2⟩ := by simpa using hbp
            have hcon : hasReading db bid sid = true :=
              List.any_eq_true.2 ⟨b, hbmem, by simp [f1, f2, hks]⟩
            exact absurd hcon hbench
          rw [hnil]
          rfl
        · rw [if_neg hkey]

/-- The spec's example scenario: benchmark assayer Smith (id 1) reads sample
G001 as 995.0 ppt, assayer Garcia (id 2) reads it as 994.5 ppt on a 1000 g
bar. -/
def dbScenario : DB :=
  ⟨[⟨1, "Smith", "E1", true⟩, ⟨2, "Garcia", "E2", true⟩],
   [⟨1, 1, "G001", 995, 10, "", "Mine Gold", some 1000⟩,
    ⟨2, 2, "G001", 1989/2, 10, "", "Mine Gold", some 1000⟩],
   [⟨1, 5, true⟩], 3⟩

/-- Concrete instance of `benchmark_deviations_characterised` on the example
scenario database (benchmark id 1). -/
theorem benchmark_deviations_characterised_witness :
    ∃ recs, get_deviations_from_benchmark dbScenario = some recs ∧
      (∀ rec ∈ recs, rec.assayer_id ≠ 1 ∧
        rec.deviation = rec.gold_content - rec.benchmark_value ∧
        rec.absolute_deviation = |rec.deviation| ∧
        (rec.benchmark_value ≠ 0 →
          rec.percentage_deviation = some (rec.deviation / rec.benchmark_value * 100))) ∧
      (∀ aid sid,
        recs.countP (fun rec => (rec.assayer_id == aid) && (rec.sample_id == sid)) =
          if aid ≠ 1 ∧ hasReading dbScenario aid sid = true ∧ hasReading dbScenario 1 sid = true
          then 1 else 0) :=
  benchmark_deviations_characterised dbScenario 1 rfl
    (by simp [uniqueResultPairs, dbScenario])
    (by simp [uniqueAssayerIds, dbScenario])
    (by intro r hr; simp only [dbScenario, List.mem_cons, List.mem_singleton] at hr ⊢
        rcases hr with rfl | rfl | h
        · exact ⟨⟨1, "Smith", "E1", true⟩, by simp⟩
        · exact ⟨⟨2, "Garcia", "E2", true⟩, by simp⟩
        · simp at h)

/-- Garcia's joined row inside `get_weighted_mass_impact` on `dbScenario`. -/
def jG : MassJoinRow :=
  ⟨2, 2, "Garcia", "G001", 1989/2, 995, 1989/2 - 995, some 1000, 10, "Mine Gold"⟩

/-- Evaluation of the mass-impact SQL query on the example scenario. -/
lemma massImpactJoin_dbScenario :
    massImpactJoin dbScenario 1 (DateFilter.byDays 0 365) 0 = [jG] := by
  norm_num [massImpactJoin, dbScenario, DateFilter.keep, jG, List.filter, List.flatMap]
  rfl

/-- Evaluation of the post-processed sample set on the example scenario. -/
lemma massSamples_dbScenario :
    massSamples dbScenario 1 (DateFilter.byDays 0 365) 0 = [toMassSample jG] := by
  rw [massSamples, massImpactJoin_dbScenario]
  rfl

/-- Mass-deviation formula (claim): every record of the mass-impact sample
set satisfies `mass_deviation_g = bar_weight_grams × (gold_content −
benchmark_gold_content) / 1000` — the recorded purity difference converted
into grams of gold. -/
theorem mass_deviation_formula (db : DB) (bid : Nat) (df : DateFilter) (m : ℚ)
    (s : MassSample) (hs : s ∈ massSamples db bid df m) :
    s.mass_deviation_g =
      s.bar_weight_grams * (s.gold_content - s.benchmark_gold_content) / 1000 := by
  obtain ⟨j, _, rfl⟩ := List.mem_map.1 hs
  simp only [toMassSample]
  ring

/-- Concrete instance of `mass_deviation_formula`: the spec's example — 995.0
benchmark, 994.5 reading, 1000 g bar — yields `mass_deviation_g = −0.5 g`. -/
theorem mass_deviation_formula_witness :
    toMassSample jG ∈ massSamples dbScenario 1 (DateFilter.byDays 0 365) 0 ∧
    (toMassSample jG).mass_deviation_g =
      (toMassSample jG).bar_weight_grams *
        ((toMassSample jG).gold_content - (toMassSample jG).benchmark_gold_content) / 1000 ∧
    (toMassSample jG).mass_deviation_g = -(1/2) ∧
    (toMassSample jG).bar_weight_grams = 1000 := by
  have hmem : toMassSample jG ∈ massSamples dbScenario 1 (DateFilter.byDays 0 365) 0 := by
    rw [massSamples_dbScenario]
    exact List.mem_singleton.2 rfl
  refine ⟨hmem, mass_deviation_formula dbScenario 1 (DateFilter.byDays 0 365) 0 _ hmem, ?_, ?_⟩
  · norm_num [toMassSample, jG, fillWeight]
  · norm_num [toMassSample, jG, fillWeight]

/-- A database in which Garcia's reading of G001 was recorded with a zero bar
weight. -/
def dbZeroWeight : DB :=
  ⟨[⟨1, "Smith", "E1", true⟩, ⟨2, "Garcia", "E2", true⟩],
   [⟨1, 1, "G001", 995, 10, "", "Mine Gold", some 1000⟩,
    ⟨2, 2, "G001", 994, 10, "", "Mine Gold", some 0⟩],
   [⟨1, 5, true⟩], 3⟩

/-- Counterexample to the claim that `get_weighted_mass_impact` treats a
record with missing or zero bar weight as a 1000 g bar: in `dbZeroWeight`
assayer 2 has a zero-bar-weight reading of a sample the benchmark also
tested, yet the computation returns an empty summary — the record is dropped
by the SQL condition `bar_weight_grams IS NOT NULL AND bar_weight_grams > 0`,
not defaulted to 1000 g (the `fillna(1000).replace(0, 1000)` line runs only
after that filter). -/
theorem zero_weight_record_dropped :
    (∃ r ∈ dbZeroWeight.assay_results, r.bar_weight_grams = some 0 ∧ r.assayer_id = 2 ∧
        r.assayer_id ≠ 1 ∧ hasReading dbZeroWeight 1 r.sample_id = true) ∧
    get_weighted_mass_impact dbZeroWeight (DateFilter.byDays 0 365) 0 = some [] := by
  refine ⟨⟨⟨2, 2, "G001", 994, 10, "", "Mine Gold", some 0⟩, ?_, rfl, rfl, by decide, rfl⟩, ?_⟩
  · simp [dbZeroWeight]
  · rfl

/-- Amended claim: every record that enters the mass-impact computation has a
recorded, strictly positive bar weight — records with missing (`NULL`) or
zero bar weight are excluded by the query, and on the included records the
1000 g defaulting step is the identity. -/
theorem mass_impact_requires_positive_weight (db : DB) (bid : Nat) (df : DateFilter) (m : ℚ)
    (j : MassJoinRow) (hj : j ∈ massImpactJoin db bid df m) :
    ∃ w, j.bar_weight_grams = some w ∧ 0 < w ∧ fillWeight j.bar_weight_grams = w := by
  simp only [massImpactJoin, List.mem_flatMap, List.mem_map, List.mem_filter] at hj
  obtain ⟨r, ⟨hr, hcond⟩, a, ha', b, hbb, rfl⟩ := hj
  cases hw : r.bar_weight_grams with
  | none => rw [hw] at hcond; simp at hcond
  | some w =>
    rw [hw] at hcond
    simp only [Bool.and_eq_true, decide_eq_true_eq] at hcond
    have hpos : 0 < w := hcond.2
    refine ⟨w, by simp [hw], hpos, ?_⟩
    simp [fillWeight, ne_of_gt hpos]

/-- Concrete instance of `mass_impact_requires_positive_weight` at Garcia's
joined row of the example scenario. -/
theorem mass_impact_requires_positive_weight_witness :
    ∃ w, jG.bar_weight_grams = some w ∧ 0 < w ∧ fillWeight jG.bar_weight_grams = w :=
  mass_impact_requires_positive_weight dbScenario 1 (DateFilter.byDays 0 365) 0 jG
    (by rw [massImpactJoin_dbScenario]; exact List.mem_singleton.2 rfl)

/-- `financial_impact` of `src/pages/10_Mass_Impact_Analysis.py` (line 248):
the summed net mass deviation times the caller-supplied gold price. -/
def financial_impact (rows : List MassSummaryRow) (gold_price_per_gram : ℚ) : ℚ :=
  (rows.map (fun row => row.total_mass_deviation_g)).sum * gold_price_per_gram

/-- `financial_gain` of the page (line 249): summed positive deviations times
the gold price. -/
def financial_gain (rows : List MassSummaryRow) (gold_price_per_gram : ℚ) : ℚ :=
  (rows.map (fun row => row.total_positive_deviation_g)).sum * gold_price_per_gram

/-- `financial_loss` of the page (line 250): summed absolute negative
deviations times the gold price. -/
def financial_loss (rows : List MassSummaryRow) (gold_price_per_gram : ℚ) : ℚ :=
  (rows.map (fun row => row.total_negative_deviation_g)).sum * gold_price_per_gram

lemma sum_map_ite_of_mem {κ : Type} [DecidableEq κ] (ks : List κ) (hnd : ks.Nodup) (k₀ : κ)
    (hk : k₀ ∈ ks) (v : ℚ) :
    (ks.map (fun k => if k₀ = k then v else 0)).sum = v := by
  induction ks with
  | nil => cases hk
  | cons k ks ih =>
    rcases List.nodup_cons.1 hnd with ⟨hknot, hnd2⟩
    rcases List.mem_cons.1 hk with rfl | hmem
    · simp only [List.map_cons, List.sum_cons]
      have hz : (ks.map (fun k => if k₀ = k then v else 0)).sum = 0 := by
        refine List.sum_eq_zero ?_
        intro x hx
        obtain ⟨k2, hk2, rfl⟩ := List.mem_map.1 hx
        rw [if_neg]
        rintro rfl
        exact hknot hk2
      rw [if_pos trivial, hz, add_zero]
    · have hne : k₀ ≠ k := by rintro rfl; exact hknot hmem
      simp only [List.map_cons, List.sum_cons, if_neg hne, zero_add]
      exact ih hnd2 hmem

/-- Grouping a list by a key and summing a column per group sums the whole
column: the groups of `massSummary` partition the sample set. -/
lemma sum_filter_groups {α κ : Type} [DecidableEq κ] (key : α → κ) (f : α → ℚ)
    (p : κ → α → Bool) (hp : ∀ k x, p k x = true ↔ key x = k) :
    ∀ (l : List α) (ks : List κ), ks.Nodup → (∀ x ∈ l, key x ∈ ks) →
      (ks.map (fun k => ((l.filter (p k)).map f).sum)).sum = (l.map f).sum := by
  intro l
  induction l with
  | nil => intro ks _ _; simp
  | cons x xs ih =>
    intro ks hnd hmem
    have hx : key x ∈ ks := hmem x (List.mem_cons_self x xs)
    have hsplit : ∀ k ∈ ks, ((List.filter (p k) (x :: xs)).map f).sum =
        (if key x = k then f x else 0) + ((xs.filter (p k)).map f).sum := by
      intro k _
      rw [List.filter_cons]
      by_cases h : key x = k
      · rw [if_pos ((hp k x).2 h), if_pos h]
        simp
      · rw [if_neg (fun hc => h ((hp k x).1 hc)), if_neg h, zero_add]
    calc (ks.map (fun k => ((List.filter (p k) (x :: xs)).map f).sum)).sum
        = (ks.map (fun k =>
            (if key x = k then f x else 0) + ((xs.filter (p k)).map f).sum)).sum := by
          rw [List.map_congr_left hsplit]
      _ = (ks.map (fun k => if key x = k then f x else 0)).sum +
          (ks.map (fun k => ((xs.filter (p k)).map f).sum)).sum := List.sum_map_add
      _ = f x + (xs.map f).sum := by
          rw [sum_map_ite_of_mem ks hnd (key x) hx (f x),
            ih ks hnd (fun y hy => hmem y (List.mem_cons_of_mem x hy))]
      _ = ((x :: xs).map f).sum := by simp

lemma sum_pos_part (l : List MassSample)
    (h : ∀ s ∈ l, s.positive_deviation_g = max 0 s.mass_deviation_g) :
    (l.map (fun s => s.positive_deviation_g)).sum =
      ((l.filter (fun s => decide (0 < s.mass_deviation_g))).map
        (fun s => s.mass_deviation_g)).sum := by
  induction l with
  | nil => rfl
  | cons s xs ih =>
    have hs := h s (List.mem_cons_self s xs)
    have ihx := ih (fun y hy => h y (List.mem_cons_of_mem s hy))
    rw [List.filter_cons]
    by_cases hpos : 0 < s.mass_deviation_g
    · rw [if_pos (by simpa using hpos)]
      simp only [List.map_cons, List.sum_cons, ihx, hs, max_eq_right (le_of_lt hpos)]
    · rw [if_neg (by simpa using hpos)]
      simp only [List.map_cons, List.sum_cons, ihx, hs, max_eq_left (not_lt.1 hpos), zero_add]

lemma sum_neg_part (l : List MassSample)
    (h : ∀ s ∈ l, s.negative_deviation_g = |min 0 s.mass_deviation_g|) :
    (l.map (fun s => s.negative_deviation_g)).sum =
      ((l.filter (fun s => decide (s.mass_deviation_g < 0))).map
        (fun s => -s.mass_deviation_g)).sum := by
  induction l with
  | nil => rfl
  | cons s xs ih =>
    have hs := h s (List.mem_cons_self s xs)
    have ihx := ih (fun y hy => h y (List.mem_cons_of_mem s hy))
    rw [List.filter_cons]
    by_cases hneg : s.mass_deviation_g < 0
    · rw [if_pos (by simpa using hneg)]
      simp only [List.map_cons, List.sum_cons, ihx, hs, min_eq_right (le_of_lt hneg),
        abs_of_neg hneg]
    · rw [if_neg (by simpa using hneg)]
      simp only [List.map_cons, List.sum_cons, ihx, hs, min_eq_left (not_lt.1 hneg),
        abs_zero, zero_add]

/-- Every member of `massSamples` carries the sign-split columns computed by
the source. -/
lemma massSamples_sign_columns (db : DB) (bid : Nat) (df : DateFilter) (m : ℚ) :
    ∀ s ∈ massSamples db bid df m,
      s.positive_deviation_g = max 0 s.mass_deviation_g ∧
      s.negative_deviation_g = |min 0 s.mass_deviation_g| := by
  intro s hs
  obtain ⟨j, _, rfl⟩ := List.mem_map.1 hs
  exact ⟨rfl, rfl⟩

lemma massSummary_total_pos (l : List MassSample) :
    ((massSummary l).map (fun row => row.total_positive_deviation_g)).sum =
      (l.map (fun s => s.positive_deviation_g)).sum := by
  rw [massSummary, List.map_map]
  exact sum_filter_groups (fun s => (s.assayer_id, s.assayer_name))
    (fun s => s.positive_deviation_g)
    (fun k s => (s.assayer_id == k.1) && (s.assayer_name == k.2))
    (fun k x => by simp [Prod.ext_iff])
    l _ (List.nodup_dedup _)
    (fun x hx => List.mem_dedup.2 (List.mem_map_of_mem _ hx))

lemma massSummary_total_neg (l : List MassSample) :
    ((massSummary l).map (fun row => row.total_negative_deviation_g)).sum =
      (l.map (fun s => s.negative_deviation_g)).sum := by
  rw [massSummary, List.map_map]
  exact sum_filter_groups (fun s => (s.assayer_id, s.assayer_name))
    (fun s => s.negative_deviation_g)
    (fun k s => (s.assayer_id == k.1) && (s.assayer_name == k.2))
    (fun k x => by simp [Prod.ext_iff])
    l _ (List.nodup_dedup _)
    (fun x hx => List.mem_dedup.2 (List.mem_map_of_mem _ hx))

lemma massSummary_total_net (l : List MassSample) :
    ((massSummary l).map (fun row => row.total_mass_deviation_g)).sum =
      (l.map (fun s => s.mass_deviation_g)).sum := by
  rw [massSummary, List.map_map]
  exact sum_filter_groups (fun s => (s.assayer_id, s.assayer_name))
    (fun s => s.mass_deviation_g)
    (fun k s => (s.assayer_id == k.1) && (s.assayer_name == k.2))
    (fun k x => by simp [Prod.ext_iff])
    l _ (List.nodup_dedup _)
    (fun x hx => List.mem_dedup.2 (List.mem_map_of_mem _ hx))

/-- Sign-separated mass-impact totals (claim): on the mass-impact sample set,
the summed `positive_deviation_g` column equals the sum of the positive mass
deviations only, and the summed `negative_deviation_g` column equals the sum
of the absolute values of the negative ones; appending any further record
never decreases either sign-specific sum (gains cancel losses only in the net
total); and the page-level financial figures are the gold price times exactly
these record-level sums. -/
theorem mass_totals_separate_signs :
    (∀ db bid df m,
      ((massSamples db bid df m).map (fun s => s.positive_deviation_g)).sum =
        (((massSamples db bid df m).filter (fun s => decide (0 < s.mass_deviation_g))).map
          (fun s => s.mass_deviation_g)).sum ∧
      ((massSamples db bid df m).map (fun s => s.negative_deviation_g)).sum =
        (((massSamples db bid df m).filter (fun s => decide (s.mass_deviation_g < 0))).map
          (fun s => -s.mass_deviation_g)).sum) ∧
    (∀ (l : List MassSample) (j : MassJoinRow),
      (l.map (fun s => s.positive_deviation_g)).sum ≤
        ((l ++ [toMassSample j]).map (fun s => s.positive_deviation_g)).sum ∧
      (l.map (fun s => s.negative_deviation_g)).sum ≤
        ((l ++ [toMassSample j]).map (fun s => s.negative_deviation_g)).sum) ∧
    (∀ db df m rows price, get_weighted_mass_impact db df m = some rows →
      ∃ bid, benchmarkId db = some bid ∧
        financial_gain rows price =
          ((massSamples db bid df m).map (fun s => s.positive_deviation_g)).sum * price ∧
        financial_loss rows price =
          ((massSamples db bid df m).map (fun s => s.negative_deviation_g)).sum * price ∧
        financial_impact rows price =
          ((massSamples db bid df m).map (fun s => s.mass_deviation_g)).sum * price) := by
  refine ⟨?_, ?_, ?_⟩
  · intro db bid df m
    exact ⟨sum_pos_part _ (fun s hs => (massSamples_sign_columns db bid df m s hs).1),
      sum_neg_part _ (fun s hs => (massSamples_sign_columns db bid df m s hs).2)⟩
  · intro l j
    constructor
    · rw [List.map_append, List.sum_append]
      refine le_add_of_nonneg_right ?_
      simp only [List.map_cons, List.map_nil, List.sum_cons, List.sum_nil, add_zero]
      exact le_max_left 0 _
    · rw [List.map_append, List.sum_append]
      refine le_add_of_nonneg_right ?_
      simp only [List.map_cons, List.map_nil, List.sum_cons, List.sum_nil, add_zero]
      exact abs_nonneg _
  · intro db df m rows price h
    cases hb : benchmarkId db with
    | none => rw [get_weighted_mass_impact, hb] at h; cases h
    | some bid =>
      rw [get_weighted_mass_impact, hb] at h
      simp only [Option.some.injEq] at h
      subst h
      exact ⟨bid, rfl, by rw [financial_gain, massSummary_total_pos],
        by rw [financial_loss, massSummary_total_neg],
        by rw [financial_impact, massSummary_total_net]⟩

/-- The summary row `get_weighted_mass_impact` produces for Garcia on the
example scenario: one sample, a 1 kg bar, a net mass deviation of −0.5 g that
is entirely a negative (loss-side) deviation. -/
def rowG : MassSummaryRow := ⟨2, "Garcia", 1, 1, -(1/2), 0, 1/2, 1/2, -(1/2)⟩

/-- Evaluation of the whole mass-impact computation on the example scenario. -/
lemma massImpact_dbScenario :
    get_weighted_mass_impact dbScenario (DateFilter.byDays 0 365) 0 = some [rowG] := by
  have h : get_weighted_mass_impact dbScenario (DateFilter.byDays 0 365) 0 =
      some (massSummary (massSamples dbScenario 1 (DateFilter.byDays 0 365) 0)) := rfl
  rw [h, massSamples_dbScenario]
  norm_num [massSummary, toMassSample, jG, fillWeight, ratMean, rowG]

/-- Concrete instance of `mass_totals_separate_signs` on the example scenario
at a gold price of 85 per gram. -/
theorem mass_totals_separate_signs_witness :
    ∃ bid, benchmarkId dbScenario = some bid ∧
      financial_gain [rowG] 85 =
        ((massSamples dbScenario bid (DateFilter.byDays 0 365) 0).map
          (fun s => s.positive_deviation_g)).sum * 85 ∧
      financial_loss [rowG] 85 =
        ((massSamples dbScenario bid (DateFilter.byDays 0 365) 0).map
          (fun s => s.negative_deviation_g)).sum * 85 ∧
      financial_impact [rowG] 85 =
        ((massSamples dbScenario bid (DateFilter.byDays 0 365) 0).map
          (fun s => s.mass_deviation_g)).sum * 85 :=
  mass_totals_separate_signs.2.2 dbScenario (DateFilter.byDays 0 365) 0 [rowG] 85
    massImpact_dbScenario

/-- One deviation record as consumed by `create_moving_average_chart`
(`src/utils.py`, lines 148-234): the chart reads the `test_date` (a day-level
timestamp: every entry path stores midnight timestamps), `assayer_name` and
`deviation` columns of the deviation DataFrame. -/
structure DevPoint where
  assayer_name : String
  test_date : Nat
  deviation : ℚ
deriving Repr, DecidableEq

/-- The distinct test dates of one assayer in ascending order — the index of
the per-assayer series after `groupby(['test_date', 'assayer_name']).mean()`
(pandas sorts group keys) followed by `sort_values('test_date')`. -/
def assayerDates (l : List DevPoint) (a : String) : List Nat :=
  ((((l.filter (fun p => p.assayer_name == a)).map (fun p => p.test_date)).dedup).insertionSort
    (· ≤ ·))

/-- Stage one of the chart: the per-assayer daily mean deviations, one value
per distinct test date, in date order. -/
def dailyMeanSeries (l : List DevPoint) (a : String) : List ℚ :=
  (assayerDates l a).map (fun d =>
    ratMean ((l.filter (fun p => (p.assayer_name == a) && (p.test_date == d))).map
      (fun p => p.deviation)))

/-- Stage two: `rolling(window=window).mean()` followed by
`dropna` — the mean of each full window of consecutive values. -/
def rollingMeans (window : Nat) (vs : List ℚ) : List ℚ :=
  (List.range vs.length).filterMap (fun i =>
    if window ≤ i + 1 then some (ratMean ((vs.drop (i + 1 - window)).take window)) else none)

/-- The y-values `create_moving_average_chart` plots for one assayer: the
rolling mean of the daily-mean series when at least `window` daily points
exist (`if len(assayer_df) >= window`), nothing otherwise. -/
def create_moving_average_values (l : List DevPoint) (window : Nat) (a : String) : List ℚ :=
  if window ≤ (dailyMeanSeries l a).length then rollingMeans window (dailyMeanSeries l a)
  else []

lemma filterMap_range_shift {α : Type} (w : Nat) (hw : 1 ≤ w) (g : Nat → α) :
    ∀ n, (List.range n).filterMap (fun i => if w ≤ i + 1 then some (g (i + 1 - w)) else none) =
      (List.range (n + 1 - w)).map g := by
  intro n
  induction n with
  | zero =>
    have h0 : 0 + 1 - w = 0 := by omega
    rw [h0]
    rfl
  | succ n ih =>
    rw [List.range_succ, List.filterMap_append, ih]
    by_cases h : w ≤ n + 1
    · have harith : n + 1 + 1 - w = (n + 1 - w) + 1 := by omega
      rw [harith, List.range_succ, List.map_append]
      simp only [List.filterMap_cons, List.filterMap_nil, if_pos h, List.map_cons, List.map_nil]
    · have harith : n + 1 + 1 - w = n + 1 - w := by omega
      rw [harith]
      simp only [List.filterMap_cons, List.filterMap_nil, if_neg h, List.append_nil]

/-- Two-stage moving average (claim): any reordering of the deviation
records — in particular any permutation of an assayer's same-day records —
leaves every chart value unchanged, because the daily per-assayer means are
computed before the rolling mean; and (second conjunct) whenever the window
fits, the plotted series is exactly the list of means of each `window`
consecutive daily means, confirming that the rolling mean runs over the
daily series, not over the raw per-sample deviations. -/
theorem moving_average_order_invariant :
    (∀ (l l2 : List DevPoint) (window : Nat) (a : String), l.Perm l2 →
      create_moving_average_values l window a = create_moving_average_values l2 window a) ∧
    (∀ (l : List DevPoint) (window : Nat) (a : String), 1 ≤ window →
      window ≤ (dailyMeanSeries l a).length →
      create_moving_average_values l window a =
        (List.range ((dailyMeanSeries l a).length + 1 - window)).map
          (fun i => ratMean (((dailyMeanSeries l a).drop i).take window))) := by
  constructor
  · intro l l2 window a h
    have hdates : assayerDates l a = assayerDates l2 a := by
      refine List.eq_of_perm_of_sorted ?_ (List.sorted_insertionSort _ _)
        (List.sorted_insertionSort _ _)
      exact ((List.perm_insertionSort _ _).trans
        (((h.filter _).map _).dedup)).trans (List.perm_insertionSort _ _).symm
    have hdaily : dailyMeanSeries l a = dailyMeanSeries l2 a := by
      rw [dailyMeanSeries, dailyMeanSeries, hdates]
      refine List.map_congr_left ?_
      intro d _
      have hperm : ((l.filter (fun p => (p.assayer_name == a) && (p.test_date == d))).map
          (fun p => p.deviation)).Perm
          ((l2.filter (fun p => (p.assayer_name == a) && (p.test_date == d))).map
          (fun p => p.deviation)) := (h.filter _).map _
      rw [ratMean, ratMean, hperm.sum_eq, hperm.length_eq]
    rw [create_moving_average_values, create_moving_average_values, hdaily]
  · intro l window a hw hfits
    rw [create_moving_average_values, if_pos hfits, rollingMeans,
      filterMap_range_shift window hw
        (fun j => ratMean (((dailyMeanSeries l a).drop j).take window))]

/-- Two same-day readings of Garcia and one next-day reading, used as the
concrete reordering scenario. -/
def pMorning : DevPoint := ⟨"Garcia", 1, 1/10⟩

/-- Second same-day reading. -/
def pEvening : DevPoint := ⟨"Garcia", 1, 3/10⟩

/-- Next-day reading. -/
def pNextDay : DevPoint := ⟨"Garcia", 2, 2/10⟩

/-- Concrete instance of `moving_average_order_invariant`: swapping two
same-day readings of Garcia leaves the chart values unchanged. -/
theorem moving_average_order_invariant_witness :
    (create_moving_average_values [pEvening, pMorning, pNextDay] 2 "Garcia" =
      create_moving_average_values [pMorning, pEvening, pNextDay] 2 "Garcia") ∧
    create_moving_average_values [pMorning, pEvening, pNextDay] 2 "Garcia" =
      (List.range
          ((dailyMeanSeries [pMorning, pEvening, pNextDay] "Garcia").length + 1 - 2)).map
        (fun i =>
          ratMean (((dailyMeanSeries [pMorning, pEvening, pNextDay] "Garcia").drop i).take 2)) :=
  ⟨moving_average_order_invariant.1 _ _ 2 "Garcia"
      (List.Perm.swap pMorning pEvening [pNextDay]),
    moving_average_order_invariant.2 _ 2 "Garcia" (by decide) (by decide)⟩

/-- Row of `certification_thresholds` (`init_trainee_db` in
`src/database_trainee.py`): the active global certification thresholds. -/
structure CertThresholds where
  min_samples : Nat
  min_accuracy_percentage : ℚ
  max_std_deviation : ℚ
  max_avg_deviation : ℚ
deriving Repr, DecidableEq

/-- The per-trainee override columns of the `trainees` table read by
`update_trainee_certification_status`. -/
structure TraineeReq where
  min_samples_required : Nat
  min_accuracy_percentage : ℚ
deriving Repr, DecidableEq

/-- One row of `trainee_evaluations` as read by
`update_trainee_certification_status`: `deviation_ppt`,
`is_within_tolerance`, `evaluation_type`. -/
structure TraineeEvaluation where
  deviation_ppt : ℚ
  is_within_tolerance : Bool
  evaluation_type : String
deriving Repr, DecidableEq

/-- Python `trainee_value or global_value` on an integer column: zero (and
`NULL`) are falsy and fall back to the global value. -/
def pyOrNat (t g : Nat) : Nat := if t = 0 then g else t

/-- Python `or` on a numeric threshold column. -/
def pyOrRat (t g : ℚ) : ℚ := if t = 0 then g else t

/-- Sample variance (the square of `np.std(deviations, ddof=1)`); only
evaluated on lists of length at least 2. -/
def sampleVariance (l : List ℚ) : ℚ :=
  (l.map (fun d => (d - ratMean l)^2)).sum / ((l.length : ℚ) - 1)

/-- The comparison `np.std(l, ddof=1) <= bound` of the source, expressed
without square roots: the code sets the standard deviation to `0.0` when the
list has at most one element, and otherwise `sqrt v ≤ b ↔ 0 ≤ b ∧ v ≤ b²`
(see `stdLeB_eq_sqrt_le`). -/
def stdLeB (l : List ℚ) (bound : ℚ) : Bool :=
  if l.length ≤ 1 then decide (0 ≤ bound)
  else decide (0 ≤ bound ∧ sampleVariance l ≤ bound^2)

lemma sampleVariance_nonneg (l : List ℚ) (h : 2 ≤ l.length) : 0 ≤ sampleVariance l := by
  refine div_nonneg (List.sum_nonneg ?_) ?_
  · intro x hx
    obtain ⟨d, _, rfl⟩ := List.mem_map.1 hx
    exact sq_nonneg _
  · have h2 : (2:ℚ) ≤ (l.length : ℚ) := by exact_mod_cast h
    linarith

/-- `stdLeB` decides exactly the float comparison of the source: for a list
with at least two elements it holds iff the (real) sample standard deviation
is at most the bound. -/
lemma stdLeB_eq_sqrt_le (l : List ℚ) (bound : ℚ) (h : 2 ≤ l.length) :
    stdLeB l bound = true ↔ Real.sqrt ((sampleVariance l : ℚ) : ℝ) ≤ ((bound : ℚ) : ℝ) := by
  have hvar : (0:ℚ) ≤ sampleVariance l := sampleVariance_nonneg l h
  rw [stdLeB, if_neg (by omega)]
  simp only [decide_eq_true_eq]
  constructor
  · rintro ⟨hb, hle⟩
    calc Real.sqrt ((sampleVariance l : ℚ) : ℝ)
        ≤ Real.sqrt (((bound^2 : ℚ) : ℝ)) := Real.sqrt_le_sqrt (by exact_mod_cast hle)
      _ = ((bound : ℚ) : ℝ) := by
          push_cast
          exact Real.sqrt_sq (by exact_mod_cast hb)
  · intro hs
    have hb : (0:ℝ) ≤ ((bound : ℚ) : ℝ) := le_trans (Real.sqrt_nonneg _) hs
    refine ⟨by exact_mod_cast hb, ?_⟩
    have hsq := pow_le_pow_left₀ (Real.sqrt_nonneg _) hs 2
    rw [Real.sq_sqrt (by exact_mod_cast hvar)] at hsq
    exact_mod_cast hsq

/-- `evaluation_type == 'accuracy'` partition of the evaluation history. -/
def accuracyEvals (evals : List TraineeEvaluation) : List TraineeEvaluation :=
  evals.filter (fun e => e.evaluation_type == "accuracy")

/-- `evaluation_type == 'consistency'` partition of the evaluation history. -/
def consistencyEvals (evals : List TraineeEvaluation) : List TraineeEvaluation :=
  evals.filter (fun e => e.evaluation_type == "consistency")

/-- The per-type stats dict built by `update_trainee_certification_status`:
`count`, `within_tolerance` (a sum of 0/1 flags) and the deviation list. -/
structure TypeStats where
  count : Nat
  within_tolerance : Nat
  deviations : List ℚ
deriving Repr, DecidableEq

/-- Builds the stats dict for one evaluation type. -/
def mkStats (l : List TraineeEvaluation) : TypeStats :=
  ⟨l.length, (l.filter (fun e => e.is_within_tolerance)).length,
    l.map (fun e => e.deviation_ppt)⟩

/-- `stats.get('accuracy_percentage', 0)`: the derived entry exists only when
the type has at least one evaluation. -/
def statAccuracyPercentage (s : TypeStats) : ℚ :=
  if s.count = 0 then 0 else (s.within_tolerance : ℚ) / (s.count : ℚ) * 100

/-- `stats.get('avg_deviation', 999)`. -/
def statAvgDeviation (s : TypeStats) : ℚ :=
  if s.count = 0 then 999 else s.deviations.sum / (s.count : ℚ)

/-- `stats.get('std_deviation', 999) <= bound`. -/
def statStdLe (s : TypeStats) (bound : ℚ) : Bool :=
  if s.count = 0 then decide ((999:ℚ) ≤ bound) else stdLeB s.deviations bound

/-- The three-part pass condition applied to one type's stats (the
`accuracy_passed` / `consistency_passed` expressions of the source). -/
def typePassed (min_acc max_avg max_std : ℚ) (s : TypeStats) : Bool :=
  decide (min_acc ≤ statAccuracyPercentage s) &&
  decide (|statAvgDeviation s| ≤ max_avg) &&
  statStdLe s max_std

/-- The trainee status values the source writes. -/
inductive TraineeStatus where
  | Pending
  | Certified
  | NeedsMoreTraining
deriving Repr, DecidableEq

/-- `update_trainee_certification_status` (`src/database_trainee.py`, lines
280-439): recomputes the status from the whole evaluation history.  The
per-trainee overrides combine with the global thresholds through Python
`or`; with no evaluations at all the status stays Pending; with enough
accuracy evaluations the accuracy stats (and, when any consistency
evaluation exists, also the consistency stats) must pass all three
thresholds for Certified, else Needs More Training; with too few accuracy
evaluations the status is Pending. -/
def update_trainee_certification_status (glob : CertThresholds) (req : TraineeReq)
    (evals : List TraineeEvaluation) : TraineeStatus :=
  let min_samples := pyOrNat req.min_samples_required glob.min_samples
  let min_acc := pyOrRat req.min_accuracy_percentage glob.min_accuracy_percentage
  if evals.isEmpty then .Pending
  else
    let acc := mkStats (accuracyEvals evals)
    let cons := mkStats (consistencyEvals evals)
    if min_samples ≤ acc.count then
      let accuracy_passed := typePassed min_acc glob.max_avg_deviation glob.max_std_deviation acc
      if 0 < cons.count then
        if accuracy_passed &&
            typePassed min_acc glob.max_avg_deviation glob.max_std_deviation cons
        then .Certified else .NeedsMoreTraining
      else
        if accuracy_passed then .Certified else .NeedsMoreTraining
    else .Pending

/-- On a nonempty type the pass condition reads the true derived stats, with no
dict defaults. -/
lemma typePassed_iff (min_acc max_avg max_std : ℚ) (l : List TraineeEvaluation)
    (hne : l ≠ []) :
    typePassed min_acc max_avg max_std (mkStats l) = true ↔
      (min_acc ≤ ((l.filter (fun e => e.is_within_tolerance)).length : ℚ) /
          (l.length : ℚ) * 100 ∧
       |(l.map (fun e => e.deviation_ppt)).sum / (l.length : ℚ)| ≤ max_avg ∧
       stdLeB (l.map (fun e => e.deviation_ppt)) max_std = true) := by
  have hc : l.length ≠ 0 := fun hz => hne (List.length_eq_zero.1 hz)
  rw [typePassed, statStdLe, Bool.and_eq_true, Bool.and_eq_true]
  simp only [statAccuracyPercentage, statAvgDeviation, mkStats, if_neg hc,
    decide_eq_true_eq]
  tauto

/-- Certification rule (claim): provided the effective minimum sample count
is positive, the recomputed status is Certified exactly when the accuracy
evaluations reach the minimum count and pass the percent-within-tolerance,
average-deviation and standard-deviation thresholds, and — whenever at least
one consistency evaluation exists — the consistency evaluations independently
pass the same three thresholds; and with fewer than the minimum number of
accuracy evaluations the status is Pending, never a negative outcome. -/
theorem trainee_certification_rule (glob : CertThresholds) (req : TraineeReq)
    (evals : List TraineeEvaluation)
    (hmin : 0 < pyOrNat req.min_samples_required glob.min_samples) :
    (update_trainee_certification_status glob req evals = TraineeStatus.Certified ↔
      (pyOrNat req.min_samples_required glob.min_samples ≤ (accuracyEvals evals).length ∧
       pyOrRat req.min_accuracy_percentage glob.min_accuracy_percentage ≤
         (((accuracyEvals evals).filter (fun e => e.is_within_tolerance)).length : ℚ) /
           ((accuracyEvals evals).length : ℚ) * 100 ∧
       |((accuracyEvals evals).map (fun e => e.deviation_ppt)).sum /
           ((accuracyEvals evals).length : ℚ)| ≤ glob.max_avg_deviation ∧
       stdLeB ((accuracyEvals evals).map (fun e => e.deviation_ppt))
         glob.max_std_deviation = true ∧
       (0 < (consistencyEvals evals).length →
         (pyOrRat req.min_accuracy_percentage glob.min_accuracy_percentage ≤
            (((consistencyEvals evals).filter (fun e => e.is_within_tolerance)).length : ℚ) /
              ((consistencyEvals evals).length : ℚ) * 100 ∧
          |((consistencyEvals evals).map (fun e => e.deviation_ppt)).sum /
              ((consistencyEvals evals).length : ℚ)| ≤ glob.max_avg_deviation ∧
          stdLeB ((consistencyEvals evals).map (fun e => e.deviation_ppt))
            glob.max_std_deviation = true)))) ∧
    ((accuracyEvals evals).length < pyOrNat req.min_samples_required glob.min_samples →
      update_trainee_certification_status glob req evals = TraineeStatus.Pending) := by
  constructor
  · by_cases hemp : evals.isEmpty = true
    · have hevals : evals = [] := by
        cases evals with
        | nil => rfl
        | cons x xs => simp [List.isEmpty] at hemp
      subst hevals
      constructor
      · intro h
        simp only [update_trainee_certification_status] at h
        rw [if_pos hemp] at h
        exact absurd h (by decide)
      · rintro ⟨h1, -⟩
        simp only [accuracyEvals, List.filter_nil, List.length_nil, Nat.le_zero] at h1
        omega
    · simp only [update_trainee_certification_status]
      rw [if_neg hemp]
      by_cases hcount : pyOrNat req.min_samples_required glob.min_samples ≤
          (mkStats (accuracyEvals evals)).count
      · rw [if_pos hcount]
        have hacc_ne : accuracyEvals evals ≠ [] := by
          intro hz
          rw [hz] at hcount
          simp [mkStats] at hcount
          omega
        by_cases hcons : 0 < (mkStats (consistencyEvals evals)).count
        · rw [if_pos hcons]
          have hcons_ne : consistencyEvals evals ≠ [] := by
            intro hz
            rw [hz] at hcons
            simp [mkStats] at hcons
          constructor
          · intro h
            by_cases hp : (typePassed
                  (pyOrRat req.min_accuracy_percentage glob.min_accuracy_percentage)
                  glob.max_avg_deviation glob.max_std_deviation
                  (mkStats (accuracyEvals evals)) &&
                typePassed
                  (pyOrRat req.min_accuracy_percentage glob.min_accuracy_percentage)
                  glob.max_avg_deviation glob.max_std_deviation
                  (mkStats (consistencyEvals evals))) = true
            · obtain ⟨hA, hC⟩ := (Bool.and_eq_true _ _).mp hp
              obtain ⟨hA1, hA2, hA3⟩ := (typePassed_iff _ _ _ _ hacc_ne).1 hA
              exact ⟨by simpa [mkStats] using hcount, hA1, hA2, hA3,
                fun _ => (typePassed_iff _ _ _ _ hcons_ne).1 hC⟩
            · rw [if_neg hp] at h
              exact absurd h (by decide)
          · rintro ⟨h1, h2, h3, h4, h5⟩
            rw [if_pos ((Bool.and_eq_true _ _).mpr
              ⟨(typePassed_iff _ _ _ _ hacc_ne).2 ⟨h2, h3, h4⟩,
               (typePassed_iff _ _ _ _ hcons_ne).2 (h5 (by simpa [mkStats] using hcons))⟩)]
        · rw [if_neg hcons]
          constructor
          · intro h
            by_cases hp : typePassed
                (pyOrRat req.min_accuracy_percentage glob.min_accuracy_percentage)
                glob.max_avg_deviation glob.max_std_deviation
                (mkStats (accuracyEvals evals)) = true
            · obtain ⟨hA1, hA2, hA3⟩ := (typePassed_iff _ _ _ _ hacc_ne).1 hp
              refine ⟨by simpa [mkStats] using hcount, hA1, hA2, hA3, fun hc => ?_⟩
              exact absurd hc (by simpa [mkStats] using hcons)
            · rw [if_neg hp] at h
              exact absurd h (by decide)
          · rintro ⟨h1, h2, h3, h4, -⟩
            rw [if_pos ((typePassed_iff _ _ _ _ hacc_ne).2 ⟨h2, h3, h4⟩)]
      · rw [if_neg hcount]
        constructor
        · intro h
          exact absurd h (by decide)
        · rintro ⟨h1, -⟩
          exact absurd h1 (by simpa [mkStats] using hcount)
  · intro hlt
    simp only [update_trainee_certification_status]
    by_cases hemp : evals.isEmpty = true
    · rw [if_pos hemp]
    · rw [if_neg hemp, if_neg (by simpa [mkStats] using Nat.not_le.2 hlt)]

/-- The spec's example thresholds: `min_samples = 20`, `min_accuracy = 85 %`,
`max_std = 0.5`, `max_avg_deviation = 0.2`. -/
def globScenario : CertThresholds := ⟨20, 85, 1/2, 1/5⟩

/-- A trainee with no per-trainee overrides (zero falls back to the global
thresholds through Python `or`). -/
def reqScenario : TraineeReq := ⟨0, 0⟩

/-- The spec's example history: 20 accuracy evaluations, 18 of them within
tolerance (90 %), every deviation 0.15 ppt (average 0.15, standard deviation
0), no consistency evaluations. -/
def evalsScenario : List TraineeEvaluation :=
  List.replicate 18 ⟨3/20, true, "accuracy"⟩ ++ List.replicate 2 ⟨3/20, false, "accuracy"⟩

/-- Concrete instance of `trainee_certification_rule`: the spec's example
trainee is Certified. -/
theorem trainee_certification_rule_witness :
    0 < pyOrNat reqScenario.min_samples_required globScenario.min_samples ∧
    update_trainee_certification_status globScenario reqScenario evalsScenario =
      TraineeStatus.Certified := by
  have hacc : accuracyEvals evalsScenario = evalsScenario := by
    rw [accuracyEvals, evalsScenario, List.filter_append, List.filter_replicate,
      List.filter_replicate]
    norm_num
  have hlen : evalsScenario.length = 20 := by
    rw [evalsScenario, List.length_append, List.length_replicate, List.length_replicate]
  have hwith : (evalsScenario.filter (fun e => e.is_within_tolerance)).length = 18 := by
    rw [evalsScenario, List.filter_append, List.filter_replicate, List.filter_replicate]
    norm_num
  have hdevs : evalsScenario.map (fun e => e.deviation_ppt) = List.replicate 20 ((3:ℚ)/20) := by
    rw [evalsScenario, List.map_append, List.map_replicate, List.map_replicate,
      List.append_replicate_replicate]
  have hcons : consistencyEvals evalsScenario = [] := by
    rw [consistencyEvals, evalsScenario, List.filter_append, List.filter_replicate,
      List.filter_replicate]
    norm_num
    decide
  have hmean : ratMean (List.replicate 20 ((3:ℚ)/20)) = 3/20 := by
    rw [ratMean, List.sum_replicate, List.length_replicate, nsmul_eq_mul]
    norm_num
  have hstd : stdLeB (List.replicate 20 ((3:ℚ)/20)) globScenario.max_std_deviation = true := by
    rw [stdLeB, if_neg (by simp)]
    rw [decide_eq_true_eq]
    refine ⟨by norm_num [globScenario], ?_⟩
    rw [sampleVariance, hmean, List.map_replicate, List.length_replicate]
    norm_num [globScenario]
  refine ⟨by norm_num [pyOrNat, reqScenario, globScenario], ?_⟩
  refine (trainee_certification_rule globScenario reqScenario evalsScenario
    (by norm_num [pyOrNat, reqScenario, globScenario])).1.mpr ?_
  rw [hacc, hcons, hdevs]
  refine ⟨?_, ?_, ?_, hstd, ?_⟩
  · rw [hlen]
    norm_num [pyOrNat, reqScenario, globScenario]
  · rw [hwith, hlen]
    norm_num [pyOrRat, reqScenario, globScenario]
  · rw [List.sum_replicate, hlen, nsmul_eq_mul]
    rw [show ((20:ℕ):ℚ) * (3/20) / ((20:ℕ):ℚ) = 3/20 by norm_num,
      abs_of_nonneg (by norm_num : (0:ℚ) ≤ 3/20)]
    norm_num [globScenario]
  · intro hc
    simp at hc

end GoldAssay
